import Mathlib

/-!
Verification development for the admin API subsystem of the hfs repository
(src/server/src/adminApis.ts).  The TypeScript operations are shallowly
embedded as Lean functions: the object-mode Readable stream behind the generic
live-list channel becomes an explicit state record, side effects (config
writes, file writes) become explicit state passing, and the access-log regular
expression of get_log becomes an executable matcher over character lists.
Collaborators that live outside src (the config store, the events bus helper
onOff, the transport layer destroying a detached stream) are modelled from the
specification and are marked as such in their doc comments.
-/

set_option autoImplicit false

namespace Hfs

/-! ## The live-list channel (sendList) -/

/-- One frame of the object stream produced by sendList: the pushed objects
have shape add rec, remove keys, update pairs, plus the string marker pushed
once the initial snapshot has been emitted. -/
inductive Frame (T PT : Type) where
  | add (item : T)
  | remove (keys : List PT)
  | update (pairs : List (PT × PT))
  | init
deriving DecidableEq

variable {T PT : Type}

/-- State of the object-mode Readable stream backing sendList: the frames
pushed so far, in order, and whether the stream was destroyed.  Modelled from
the spec for the part outside src: the transport (Node Readable under Koa)
destroys the stream when the consumer detaches, and pushing to a destroyed
stream discards the chunk instead of appending or buffering it. -/
structure RStream (T PT : Type) where
  buffer : List (Frame T PT)
  destroyed : Bool
deriving DecidableEq

/-- stream.push: appends a frame to an open stream; a destroyed stream
discards the frame. -/
def push (s : RStream T PT) (f : Frame T PT) : RStream T PT :=
  if s.destroyed then s else { s with buffer := s.buffer ++ [f] }

/-- sendList(addAtStart): creates the stream, emits one add frame per initial
item in input order, then the snapshot-complete marker. -/
def sendList (addAtStart : List T) : RStream T PT :=
  push (addAtStart.foldl (fun st x => push st (Frame.add x))
    { buffer := [], destroyed := false }) Frame.init

/-- ret.add(rec): pushes an add frame. -/
def listAdd (s : RStream T PT) (rec : T) : RStream T PT :=
  push s (Frame.add rec)

/-- ret.remove(key): pushes a remove frame carrying the one key. -/
def listRemove (s : RStream T PT) (key : PT) : RStream T PT :=
  push s (Frame.remove [key])

/-- ret.update(search, change): pushes an update frame carrying the one pair. -/
def listUpdate (s : RStream T PT) (search change : PT) : RStream T PT :=
  push s (Frame.update [(search, change)])

/-- The transport destroying the Readable once the consumer has detached. -/
def destroyStream (s : RStream T PT) : RStream T PT :=
  { s with destroyed := true }

/-- One producer mutation event as delivered to the handlers registered by a
live-list operation: each handler turns its event into exactly one channel
call (get_connections and get_plugins map connection/plugin events to
list.add, list.remove or list.update). -/
inductive ProdEvent (T PT : Type) where
  | add (item : T)
  | remove (key : PT)
  | update (search change : PT)

/-- The single diff frame produced by the handler of one mutation event. -/
def eventFrame : ProdEvent T PT → Frame T PT
  | ProdEvent.add x => Frame.add x
  | ProdEvent.remove k => Frame.remove [k]
  | ProdEvent.update a b => Frame.update [(a, b)]

/-- Dispatch of one mutation event to the registered handler: the handler
performs the corresponding channel call. -/
def applyEvent (s : RStream T PT) (e : ProdEvent T PT) : RStream T PT :=
  match e with
  | ProdEvent.add x => listAdd s x
  | ProdEvent.remove k => listRemove s k
  | ProdEvent.update a b => listUpdate s a b

lemma push_open (buf : List (Frame T PT)) (f : Frame T PT) :
    push { buffer := buf, destroyed := false } f
      = { buffer := buf ++ [f], destroyed := false } := rfl

lemma foldl_push_add (S0 : List T) (buf : List (Frame T PT)) :
    S0.foldl (fun st x => push st (Frame.add x)) { buffer := buf, destroyed := false }
      = { buffer := buf ++ S0.map Frame.add, destroyed := false } := by
  induction S0 generalizing buf with
  | nil => simp
  | cons x xs ih => simp [push_open, ih]

lemma sendList_eq (S0 : List T) :
    (sendList S0 : RStream T PT)
      = { buffer := S0.map Frame.add ++ [Frame.init], destroyed := false } := by
  simp [sendList, foldl_push_add, push_open]

lemma foldl_applyEvent (ms : List (ProdEvent T PT)) (buf : List (Frame T PT)) :
    ms.foldl applyEvent { buffer := buf, destroyed := false }
      = { buffer := buf ++ ms.map eventFrame, destroyed := false } := by
  induction ms generalizing buf with
  | nil => simp
  | cons e ms ih =>
    cases e <;>
      simp [applyEvent, listAdd, listRemove, listUpdate, push_open, eventFrame, ih]

/-- C1: for every initial snapshot S0 and every sequence of producer mutation
events delivered to the subscription's handlers, the live-list stream holds
exactly one add frame per item of S0 in enumeration order, then the
snapshot-complete marker, then one diff frame per event in delivery order,
with nothing missing and nothing duplicated.  Snapshot capture (sendList) and
handler registration happen in one synchronous block of the request handler,
so every event the handlers receive lands after the marker. -/
theorem c1_snapshot_then_diff (T PT : Type) (S0 : List T) (ms : List (ProdEvent T PT)) :
    (ms.foldl applyEvent (sendList S0)).buffer
      = S0.map Frame.add ++ [Frame.init] ++ ms.map eventFrame := by
  rw [sendList_eq, foldl_applyEvent]

/-- C4: once the channel's consumer has detached (the stream is destroyed),
add, remove and update are no-ops: the diff is discarded, not appended and not
buffered. -/
theorem c4_detached_noop (T PT : Type) (s : RStream T PT) (h : s.destroyed = true)
    (x : T) (k a b : PT) :
    listAdd s x = s ∧ listRemove s k = s ∧ listUpdate s a b = s := by
  refine ⟨?_, ?_, ?_⟩ <;> simp [listAdd, listRemove, listUpdate, push, h]

/-- Witness for C4 at a concrete destroyed channel over Nat items. -/
theorem c4_detached_noop_witness :
    (destroyStream (sendList ([1] : List Nat) : RStream Nat Nat)).destroyed = true ∧
      (listAdd (destroyStream (sendList ([1] : List Nat) : RStream Nat Nat)) 2
          = destroyStream (sendList ([1] : List Nat)) ∧
        listRemove (destroyStream (sendList ([1] : List Nat) : RStream Nat Nat)) 3
          = destroyStream (sendList ([1] : List Nat)) ∧
        listUpdate (destroyStream (sendList ([1] : List Nat) : RStream Nat Nat)) 4 5
          = destroyStream (sendList ([1] : List Nat))) :=
  ⟨rfl, c4_detached_noop Nat Nat _ rfl 2 3 4 5⟩

/-! ## Access gate and the uniform wrapping of adminApis -/

/-- Configuration subset read or written by adminApis (the config store itself
is outside src; the fields are exactly the keys this file touches). -/
structure Config where
  port : Int
  https_port : Int
  localhost_admin : Bool
  disable_plugins : List String
deriving DecidableEq

/-- Request-context facts consulted by adminApis: isLocalHost(ctx),
ctx.state.proxiedFor (a proxied request was detected), and the admin
capability obtained from ctx.state.account through getFromAccount. -/
structure Ctx where
  isLocalHost : Bool
  proxiedFor : Bool
  accountAdmin : Bool
deriving DecidableEq

/-- ctxAdminAccess(ctx): loopback origin, with the localhost_admin config flag
on and no proxy detected, or an account with the admin capability. -/
def ctxAdminAccess (cfg : Config) (ctx : Ctx) : Bool :=
  ctx.isLocalHost && cfg.localhost_admin && !ctx.proxiedFor || ctx.accountAdmin

/-- C3: the access predicate holds exactly when (loopback origin AND the
localhost_admin flag AND not relayed through a detected proxy) OR the account
carries the admin capability. -/
theorem c3_access_iff (cfg : Config) (ctx : Ctx) :
    ctxAdminAccess cfg ctx = true ↔
      (ctx.isLocalHost = true ∧ cfg.localhost_admin = true ∧ ctx.proxiedFor = false)
        ∨ ctx.accountAdmin = true := by
  cases ctx with
  | mk l p a =>
    cases l <;> cases p <;> cases a <;> simp [ctxAdminAccess]

/-- Observable side-effect state an admin operation may touch: the
configuration, the files written so far, and the number of live-list streams
created so far. -/
structure World where
  config : Config
  files : List (String × String)
  streams : Nat
deriving DecidableEq

/-- Outcome of an admin operation: a result value or an ApiError with numeric
code and message. -/
inductive ApiResult (R : Type) where
  | ok (val : R)
  | error (code : Nat) (msg : String)
deriving DecidableEq

/-- An admin operation as stored in the adminApis table: parameters and
request context to outcome plus updated world. -/
def Handler (P R : Type) : Type :=
  P → Ctx → World → ApiResult R × World

/-- The wrapper installed over every key of adminApis: consult ctxAdminAccess
first and short-circuit to ApiError 401 without calling the wrapped handler. -/
def wrapAdmin {P R : Type} (was : Handler P R) : Handler P R :=
  fun p ctx w =>
    if ctxAdminAccess w.config ctx then was p ctx w else (ApiResult.error 401 "", w)

/-- The for-loop over the table: every key gets the same wrapper. -/
def wrapAll {P R : Type} (table : String → Handler P R) : String → Handler P R :=
  fun k => wrapAdmin (table k)

/-- C2: for every key of the wrapped table and every context the gate rejects,
the operation returns ApiError 401 and the world is untouched: no config
write, no file write, no stream creation, and the underlying handler is never
consulted. -/
theorem c2_unauthorized_uniform (P R : Type) (table : String → Handler P R)
    (k : String) (p : P) (ctx : Ctx) (w : World)
    (h : ctxAdminAccess w.config ctx = false) :
    wrapAll table k p ctx w = (ApiResult.error 401 "", w) := by
  simp [wrapAll, wrapAdmin, h]

/-- Concrete configuration used by witnesses. -/
def cfgW : Config :=
  { port := 80, https_port := 443, localhost_admin := true, disable_plugins := [] }

/-- Concrete rejected request context used by witnesses: remote, unproxied,
no admin account. -/
def ctxW : Ctx :=
  { isLocalHost := false, proxiedFor := false, accountAdmin := false }

/-- Concrete world used by witnesses. -/
def worldW : World :=
  { config := cfgW, files := [], streams := 0 }

/-- Concrete handler table used by the C2 witness. -/
def tableW : String → Handler Nat Nat :=
  fun _ => fun _ _ w => (ApiResult.ok 0, w)

/-- Witness for C2: a non-local, non-admin context is rejected on a concrete
table without touching the world. -/
theorem c2_unauthorized_uniform_witness :
    ctxAdminAccess cfgW ctxW = false ∧
      wrapAll tableW "set_config" 0 ctxW worldW = (ApiResult.error 401 "", worldW) :=
  ⟨rfl, c2_unauthorized_uniform Nat Nat tableW "set_config" 0 ctxW worldW rfl⟩

/-! ## Event-bus registrations and the events() teardown path -/

/-- One EventBus registration: an event name paired with a handler identity.
Modelled from the spec for code outside src: the events module is a
process-wide EventEmitter and onOff (from misc) registers every pair of the
given event map. -/
abbrev Registration := String × Nat

/-- Registration half of onOff(events, eventMap): every pair of the map is
added to the bus. -/
def onOffOn (bus m : List Registration) : List Registration :=
  bus ++ m

/-- EventEmitter off for one pair: removes at most one matching
registration. -/
def eraseFirst : List Registration → Registration → List Registration
  | [], _ => []
  | x :: xs, r => if x = r then xs else x :: eraseFirst xs r

/-- The function returned by onOff, as run against the bus: deregister each
pair of the event map once.  The connection layer invokes it through
ctx.res.once close. -/
def onOffUnsub (bus m : List Registration) : List Registration :=
  m.foldl eraseFirst bus

lemma eraseFirst_not_mem (bus : List Registration) (r : Registration) (h : r ∉ bus) :
    eraseFirst bus r = bus := by
  induction bus with
  | nil => rfl
  | cons x xs ih =>
    have hx : ¬ x = r := fun e => h (by simp [e])
    simp [eraseFirst, hx, ih fun hm => h (by simp [hm])]

lemma eraseFirst_append_cons (bus m' : List Registration) (r : Registration)
    (h : r ∉ bus) :
    eraseFirst (bus ++ r :: m') r = bus ++ m' := by
  induction bus with
  | nil => simp [eraseFirst]
  | cons x xs ih =>
    have hx : ¬ x = r := fun e => h (by simp [e])
    simp [eraseFirst, hx, ih fun hm => h (by simp [hm])]

lemma unsub_fresh (m : List Registration) :
    ∀ bus, (∀ r ∈ m, r ∉ bus) → onOffUnsub bus m = bus := by
  induction m with
  | nil => intro bus _; rfl
  | cons r m ih =>
    intro bus h
    rw [onOffUnsub, List.foldl_cons, eraseFirst_not_mem bus r (h r (by simp))]
    exact ih bus fun x hx => h x (by simp [hx])

lemma unsub_on_fresh (m : List Registration) :
    ∀ bus, (∀ r ∈ m, r ∉ bus) → onOffUnsub (onOffOn bus m) m = bus := by
  induction m with
  | nil => intro bus _; simp [onOffUnsub, onOffOn]
  | cons r m ih =>
    intro bus h
    rw [onOffOn, onOffUnsub, List.foldl_cons,
      eraseFirst_append_cons bus m r (h r (by simp))]
    exact ih bus fun x hx => h x (by simp [hx])

/-- C5: for a subscription whose handlers are not otherwise registered on the
bus, running the teardown path removes each registered handler exactly once
(the bus returns to its prior state), running it a second time changes
nothing, and after the first teardown none of the subscription's handlers
remains registered, so later producer events cannot reach its output. -/
theorem c5_teardown_idempotent (bus m : List Registration)
    (h : ∀ r ∈ m, r ∉ bus) :
    onOffUnsub (onOffOn bus m) m = bus ∧
      onOffUnsub (onOffUnsub (onOffOn bus m) m) m = bus ∧
      ∀ r ∈ m, r ∉ onOffUnsub (onOffOn bus m) m := by
  have h1 := unsub_on_fresh m bus h
  refine ⟨h1, ?_, ?_⟩
  · rw [h1]; exact unsub_fresh m bus h
  · rw [h1]; exact h

/-- Concrete prior bus state for the C5 witness. -/
def busW : List Registration := [("log", 0)]

/-- Concrete event map registrations for the C5 witness. -/
def mapW : List Registration := [("connection", 1), ("connectionClosed", 2)]

/-- Witness for C5 on a concrete bus and event map. -/
theorem c5_teardown_idempotent_witness :
    (∀ r ∈ mapW, r ∉ busW) ∧
      (onOffUnsub (onOffOn busW mapW) mapW = busW ∧
        onOffUnsub (onOffUnsub (onOffOn busW mapW) mapW) mapW = busW ∧
        ∀ r ∈ mapW, r ∉ onOffUnsub (onOffOn busW mapW) mapW) :=
  ⟨by decide, c5_teardown_idempotent busW mapW (by decide)⟩

/-! ## set_config -/

/-- HTTP status used by set_config when both transports would go down; the
numeric value of the FORBIDDEN constant lives in const.ts, outside src. -/
def FORBIDDEN : Nat := 403

/-- Listening state of the two servers as reported by getStatus. -/
structure SrvStatus where
  httpListening : Bool
  httpsListening : Bool
deriving DecidableEq

/-- The values object accepted by set_config, restricted to the configuration
subset modelled here; absent fields leave the stored value unchanged. -/
structure ConfigValues where
  port : Option Int
  https_port : Option Int
  localhost_admin : Option Bool
  disable_plugins : Option (List String)
deriving DecidableEq

/-- setConfig(v): merge the given values over the stored configuration. -/
def applyValues (cfg : Config) (v : ConfigValues) : Config :=
  { port := v.port.getD cfg.port
    https_port := v.https_port.getD cfg.https_port
    localhost_admin := v.localhost_admin.getD cfg.localhost_admin
    disable_plugins := v.disable_plugins.getD cfg.disable_plugins }

/-- noHttp of set_config: requested (or else stored) plain port negative, or
the plain server not listening. -/
def noHttpOf (st : SrvStatus) (cfg : Config) (v : ConfigValues) : Bool :=
  decide (v.port.getD cfg.port < 0) || !st.httpListening

/-- noHttps of set_config: requested (or else stored) secure port negative, or
the secure server not listening. -/
def noHttpsOf (st : SrvStatus) (cfg : Config) (v : ConfigValues) : Bool :=
  decide (v.https_port.getD cfg.https_port < 0) || !st.httpsListening

/-- set_config: reject when both transports would be unreachable, otherwise
apply the new values; with no values object it is a read-only success. -/
def set_config (st : SrvStatus) (cfg : Config) (v : Option ConfigValues) :
    ApiResult Unit × Config :=
  match v with
  | none => (ApiResult.ok (), cfg)
  | some vv =>
    if noHttpOf st cfg vv && noHttpsOf st cfg vv then
      (ApiResult.error FORBIDDEN "You cannot switch off both http and https ports", cfg)
    else (ApiResult.ok (), applyValues cfg vv)

/-- C6: a set_config call whose values would leave both transports unreachable
returns the fixed rejection and leaves the configuration unmodified; any other
call with values applies them. -/
theorem c6_reject_unreachable (st : SrvStatus) (cfg : Config) (vv : ConfigValues) :
    ((noHttpOf st cfg vv && noHttpsOf st cfg vv) = true →
      set_config st cfg (some vv)
        = (ApiResult.error FORBIDDEN "You cannot switch off both http and https ports",
          cfg)) ∧
    ((noHttpOf st cfg vv && noHttpsOf st cfg vv) = false →
      set_config st cfg (some vv) = (ApiResult.ok (), applyValues cfg vv)) := by
  constructor <;> intro h <;> simp [set_config, h]

/-- Status with both servers down, for the C6 witness. -/
def stDownW : SrvStatus := { httpListening := false, httpsListening := false }

/-- Status with both servers up, for the C6 witness. -/
def stUpW : SrvStatus := { httpListening := true, httpsListening := true }

/-- Empty values object for the C6 witness. -/
def valsW : ConfigValues :=
  { port := none, https_port := none, localhost_admin := none, disable_plugins := none }

/-- Witness for C6: both branches at concrete inputs. -/
theorem c6_reject_unreachable_witness :
    ((noHttpOf stDownW cfgW valsW && noHttpsOf stDownW cfgW valsW) = true ∧
      set_config stDownW cfgW (some valsW)
        = (ApiResult.error FORBIDDEN "You cannot switch off both http and https ports",
          cfgW)) ∧
    ((noHttpOf stUpW cfgW valsW && noHttpsOf stUpW cfgW valsW) = false ∧
      set_config stUpW cfgW (some valsW) = (ApiResult.ok (), applyValues cfgW valsW)) :=
  ⟨⟨by decide, (c6_reject_unreachable stDownW cfgW valsW).1 (by decide)⟩,
    ⟨by decide, (c6_reject_unreachable stUpW cfgW valsW).2 (by decide)⟩⟩

/-! ## save_pem -/

/-- Result of save_pem: the two produced file names, or an ApiError code. -/
inductive SavePemResult where
  | ok (cert private_key : String)
  | error (code : Nat)
deriving DecidableEq

/-- JS truthiness test applied by save_pem to its string parameters: an absent
or empty string is falsy. -/
def strFalsy : Option String → Bool
  | none => true
  | some s => s == ""

/-- save_pem: reject with code 400 when the certificate or the key is missing,
otherwise write the key file then the certificate file and return the two
names; the second component lists the file writes performed. -/
def save_pem (cert private_key name : Option String) :
    SavePemResult × List (String × String) :=
  if strFalsy cert || strFalsy private_key then (SavePemResult.error 400, [])
  else
    let nm := name.getD "self"
    (SavePemResult.ok (nm ++ ".cert") (nm ++ ".key"),
      [(nm ++ ".key", private_key.getD ""), (nm ++ ".cert", cert.getD "")])

/-- C7: save_pem with absent certificate or key material returns the fixed 400
error and writes no file; with both present it writes the two named files and
returns their names. -/
theorem c7_save_pem (cert private_key name : Option String) :
    ((strFalsy cert || strFalsy private_key) = true →
      save_pem cert private_key name = (SavePemResult.error 400, [])) ∧
    ((strFalsy cert || strFalsy private_key) = false →
      save_pem cert private_key name
        = (SavePemResult.ok (name.getD "self" ++ ".cert") (name.getD "self" ++ ".key"),
          [(name.getD "self" ++ ".key", private_key.getD ""),
            (name.getD "self" ++ ".cert", cert.getD "")])) := by
  constructor <;> intro h <;> simp [save_pem, h]

/-- Witness for C7: missing certificate is rejected with no writes; present
material produces the two writes and names. -/
theorem c7_save_pem_witness :
    (save_pem none (some "KEY") none = (SavePemResult.error 400, [])) ∧
      save_pem (some "CERT") (some "KEY") none
        = (SavePemResult.ok "self.cert" "self.key",
          [("self.key", "KEY"), ("self.cert", "CERT")]) :=
  ⟨(c7_save_pem none (some "KEY") none).1 (by decide),
    (c7_save_pem (some "CERT") (some "KEY") none).2 (by decide)⟩

/-! ## disconnect -/

/-- The address of a tracked connection as produced by getConnAddress. -/
structure ConnAddr where
  ip : String
  port : Nat
deriving DecidableEq

/-- Observable outcome of a disconnect call: the promise chain resolves with
the result object, or the awaited pendingPromise is never resolved and the
call never returns. -/
inductive DisconnectOutcome where
  | hangs
  | done (result : Bool)
deriving DecidableEq

/-- The lodash matcher built from the given ip and port, applied to a
connection address. -/
def connMatch (ip : String) (port : Nat) (a : ConnAddr) : Bool :=
  a.ip == ip && a.port == port

/-- disconnect: find the first matching connection; socket.end with the
waiter's resolve callback is only invoked on a found connection, so with wait
set and no match the awaited pendingPromise (from misc, outside src: a promise
resolved only by its resolve function) is never resolved. -/
def disconnect (conns : List ConnAddr) (ip : String) (port : Nat) (wait : Bool) :
    DisconnectOutcome :=
  let c := conns.find? (connMatch ip port)
  if wait && !c.isSome then DisconnectOutcome.hangs else DisconnectOutcome.done c.isSome

/-- C8: a disconnect call with wait set whose (ip, port) matches no current
connection never returns: nothing ever resolves the created waiter. -/
theorem c8_disconnect_no_match_hangs (conns : List ConnAddr) (ip : String) (port : Nat)
    (h : conns.find? (connMatch ip port) = none) :
    disconnect conns ip port true = DisconnectOutcome.hangs := by
  simp [disconnect, h]

/-- Witness for C8: waiting disconnect against a one-connection list with no
match hangs. -/
theorem c8_disconnect_no_match_hangs_witness :
    ([ConnAddr.mk "10.0.0.1" 5000].find? (connMatch "10.0.0.2" 5000) = none) ∧
      disconnect [ConnAddr.mk "10.0.0.1" 5000] "10.0.0.2" 5000 true
        = DisconnectOutcome.hangs :=
  ⟨by decide, c8_disconnect_no_match_hangs [ConnAddr.mk "10.0.0.1" 5000] "10.0.0.2" 5000
    (by decide)⟩

/-! ## set_plugin -/

/-- Array.prototype.includes over the disable_plugins list. -/
def includes (a : List String) (x : String) : Bool :=
  a.any fun y => y == x

/-- set_plugin: when a disable flag is given and the disable_plugins list does
not already reflect it, write the updated list; the Bool records whether
setConfig was invoked. -/
def set_plugin (id : String) (disable : Option Bool) (a : List String) :
    List String × Bool :=
  match disable with
  | none => (a, false)
  | some d =>
    if includes a id != d then
      ((if d then a ++ [id] else a.filter fun x => x != id), true)
    else (a, false)

lemma includes_append_self (a : List String) (id : String) :
    includes (a ++ [id]) id = true := by
  simp [includes, List.any_append]

lemma includes_filter_ne (a : List String) (id : String) :
    includes (a.filter fun x => x != id) id = false := by
  induction a with
  | nil => rfl
  | cons x xs ih =>
    by_cases hx : x = id
    · simp [List.filter_cons, hx, ih]
    · simp only [List.filter_cons]
      simp [includes, hx, bne, List.any_cons] at ih ⊢

/-- C9: set_plugin is idempotent on the configuration: when the
disable_plugins list already reflects the requested state no write happens and
the list is returned unchanged, and a second call with the same arguments
never writes and leaves the list of the first call unchanged. -/
theorem c9_set_plugin_idempotent (id : String) (d : Bool) (a : List String) :
    (includes a id = d → set_plugin id (some d) a = (a, false)) ∧
      set_plugin id (some d) (set_plugin id (some d) a).1
        = ((set_plugin id (some d) a).1, false) := by
  constructor
  · intro h
    simp [set_plugin, h]
  · cases hb : includes a id <;> cases d <;>
      simp [set_plugin, hb, includes_append_self, includes_filter_ne]

/-- Witness for C9: a list already containing the id is untouched by a
disabling call. -/
theorem c9_set_plugin_idempotent_witness :
    includes ["antivirus"] "antivirus" = true ∧
      set_plugin "antivirus" (some true) ["antivirus"] = (["antivirus"], false) :=
  ⟨by decide, (c9_set_plugin_idempotent "antivirus" true ["antivirus"]).1 (by decide)⟩

/-! ## get_log: the access-log line parser

The parse function of get_log runs the regular expression
(.+) - - bracket (.{11}):(.{14}) close-bracket quote (word+) (nonquote+)
HTTP/digit any digit quote (digit+) (rest), anchored at both ends, against one
line.  The matcher below embeds that pattern over character lists, with the
same greedy-with-backtracking choice points: the split after the first group
and the split before the HTTP suffix. -/

/-- JS RegExp dot without the dotAll flag: any character except the four line
terminators. -/
def dotChar (c : Char) : Bool :=
  !(c == Char.ofNat 10) && !(c == Char.ofNat 13) &&
    !(c == Char.ofNat 0x2028) && !(c == Char.ofNat 0x2029)

/-- JS RegExp word character class. -/
def wordChar (c : Char) : Bool :=
  c.isAlphanum || c == '_'

/-- The literal between the first group and the timestamp. -/
def sepList : List Char := [' ', '-', ' ', '-', ' ', '[']

/-- The structured entry produced for a matching line; ts holds the string
passed to the Date constructor and size the string passed to Number, kept
symbolic because those conversions happen outside this subsystem. -/
structure LogEntry where
  ip : String
  ts : String
  method : String
  uri : String
  code : Nat
  size : Option String
deriving DecidableEq

/-- All decompositions of a list into prefix and suffix, shortest prefix
first. -/
def splits : List Char → List (List Char × List Char)
  | [] => [([], [])]
  | c :: cs => ([], c :: cs) :: (splits cs).map fun p => (c :: p.1, p.2)

/-- Consume one expected literal character. -/
def expectChar (c : Char) : List Char → Option (List Char)
  | [] => none
  | x :: xs => if x == c then some xs else none

/-- Consume an expected literal sequence. -/
def expectStr : List Char → List Char → Option (List Char)
  | [], l => some l
  | c :: cs, l => (expectChar c l).bind (expectStr cs)

/-- Consume exactly n dot-matching characters. -/
def takeDots : Nat → List Char → Option (List Char × List Char)
  | 0, l => some ([], l)
  | _ + 1, [] => none
  | n + 1, c :: cs =>
    if dotChar c then (takeDots n cs).map fun p => (c :: p.1, p.2) else none

/-- Longest prefix of characters satisfying p, with the remainder. -/
def spanP (p : Char → Bool) : List Char → List Char × List Char
  | [] => ([], [])
  | c :: cs =>
    if p c then
      let r := spanP p cs
      (c :: r.1, r.2)
    else ([], c :: cs)

/-- Consume one arbitrary character. -/
def take1 : List Char → Option (Char × List Char)
  | [] => none
  | c :: cs => some (c, cs)

/-- Consume the literal HTTP version suffix together with the closing quote:
space HTTP slash, a digit, a dot-matching character, a digit, a quote. -/
def httpTail (l : List Char) : Option (List Char) :=
  match expectStr [' ', 'H', 'T', 'T', 'P', '/'] l with
  | none => none
  | some r =>
    match take1 r with
    | none => none
    | some (d1, r1) =>
      match take1 r1 with
      | none => none
      | some (x, r2) =>
        match take1 r2 with
        | none => none
        | some (d2, r3) =>
          match expectChar '"' r3 with
          | none => none
          | some rest =>
            if d1.isDigit && dotChar x && d2.isDigit then some rest else none

/-- Parse the tail after the closing quote: a space, the status digits, a
space, and the nonempty size group running to the end of the line. -/
def parseEnd (l : List Char) : Option (List Char × List Char) :=
  match expectChar ' ' l with
  | none => none
  | some r =>
    if (spanP Char.isDigit r).1.isEmpty then none
    else
      match expectChar ' ' (spanP Char.isDigit r).2 with
      | none => none
      | some g7 =>
        if g7.isEmpty || !(g7.all dotChar) then none
        else some ((spanP Char.isDigit r).1, g7)

/-- One candidate split of the request part: the prefix must be a nonempty
quote-free uri group and the suffix must carry the HTTP suffix with closing
quote and then the line tail. -/
def reqCand (q : List Char × List Char) : Option (List Char × List Char × List Char) :=
  if q.1.isEmpty || !(q.1.all fun c => !(c == '"')) then none
  else
    match httpTail q.2 with
    | none => none
    | some rest =>
      match parseEnd rest with
      | none => none
      | some (g6, g7) => some (q.1, g6, g7)

/-- Match the request part after the method and its space: the uri split is
tried greedily, longest candidate first. -/
def matchReq (r : List Char) : Option (List Char × List Char × List Char) :=
  (splits r).reverse.findSome? reqCand

/-- Match everything after the separator literal: the 11-character date, a
colon, the 14-character time, the close-bracket space quote literal, the
nonempty method word, a space, and the request part. -/
def matchRest (r1 : List Char) :
    Option (List Char × List Char × List Char × List Char × List Char × List Char) :=
  match takeDots 11 r1 with
  | none => none
  | some (g2, r2) =>
    match expectChar ':' r2 with
    | none => none
    | some r3 =>
      match takeDots 14 r3 with
      | none => none
      | some (g3, r4) =>
        match expectStr [']', ' ', '"'] r4 with
        | none => none
        | some r5 =>
          match spanP wordChar r5 with
          | (g4, r6) =>
            if g4.isEmpty then none
            else
              match expectChar ' ' r6 with
              | none => none
              | some r7 =>
                match matchReq r7 with
                | none => none
                | some (g5, g6, g7) => some (g2, g3, g4, g5, g6, g7)

/-- Digits to the number produced by the Number conversion of a digit-only
capture. -/
def natOfDigits (l : List Char) : Nat :=
  l.foldl (fun n c => 10 * n + (c.toNat - 48)) 0

/-- Build the entry object from the seven captures, mirroring the object
literal of parse. -/
def mkEntry (g1 g2 g3 g4 g5 g6 g7 : List Char) : LogEntry :=
  { ip := String.mk g1
    ts := String.mk (g2 ++ ' ' :: g3)
    method := String.mk g4
    uri := String.mk g5
    code := natOfDigits g6
    size := if g7 == ['-'] then none else some (String.mk g7) }

/-- One candidate split for the first group: the prefix must be a nonempty
dot-matching first group, the suffix must carry the separator literal and then
the rest of the pattern. -/
def parseCand (p : List Char × List Char) : Option LogEntry :=
  if p.1.isEmpty || !(p.1.all dotChar) then none
  else
    match expectStr sepList p.2 with
    | none => none
    | some r1 =>
      match matchRest r1 with
      | none => none
      | some (g2, g3, g4, g5, g6, g7) => some (mkEntry p.1 g2 g3 g4 g5 g6 g7)

/-- parse(line) of get_log: the anchored regular expression run against one
line, null when no match; the first-group split is tried greedily, longest
candidate first. -/
def parse (line : String) : Option LogEntry :=
  (splits line.toList).reverse.findSome? parseCand

/-- The readline line handler of get_log for one historical line: when the
request has been aborted it closes the input and emits nothing, otherwise it
pushes exactly one add frame carrying the parse result (null for a
non-matching line). -/
def get_log_line (aborted : Bool) (line : String) : List (Frame (Option LogEntry) Unit) :=
  if aborted then [] else [Frame.add (parse line)]

/-- Declarative shape of a line accepted by the access-log pattern: the
existence of a decomposition into the seven capture groups and the three
version characters, with the class and length constraints of the pattern. -/
def AccessLogShape (line : String) : Prop :=
  ∃ g1 g2 g3 g4 g5 g6 g7 d1 x d2,
    line.toList
        = g1 ++ sepList ++ g2 ++ ':' :: g3 ++ ']' :: ' ' :: '"' :: g4 ++ ' ' :: g5
            ++ ' ' :: 'H' :: 'T' :: 'T' :: 'P' :: '/' :: d1 :: x :: d2 :: '"' :: ' '
              :: g6 ++ ' ' :: g7
      ∧ g1 ≠ [] ∧ g1.all dotChar = true
      ∧ g2.length = 11 ∧ g2.all dotChar = true
      ∧ g3.length = 14 ∧ g3.all dotChar = true
      ∧ g4 ≠ [] ∧ g4.all wordChar = true
      ∧ g5 ≠ [] ∧ g5.all (fun c => !(c == '"')) = true
      ∧ d1.isDigit = true ∧ dotChar x = true ∧ d2.isDigit = true
      ∧ g6 ≠ [] ∧ g6.all Char.isDigit = true
      ∧ g7 ≠ [] ∧ g7.all dotChar = true

lemma findSome_inv {α β : Type} (f : α → Option β) :
    ∀ (l : List α) (b : β), l.findSome? f = some b → ∃ a ∈ l, f a = some b := by
  intro l
  induction l with
  | nil => intro b h; simp [List.findSome?] at h
  | cons a as ih =>
    intro b h
    rw [List.findSome?] at h
    cases hfa : f a with
    | some b0 =>
      rw [hfa] at h
      exact ⟨a, by simp, by rw [hfa]; exact h⟩
    | none =>
      rw [hfa] at h
      obtain ⟨x, hx, hfx⟩ := ih b h
      exact ⟨x, by simp [hx], hfx⟩

lemma splits_sound : ∀ (l : List Char) (p : List Char × List Char),
    p ∈ splits l → l = p.1 ++ p.2 := by
  intro l
  induction l with
  | nil =>
    intro p hp
    simp [splits] at hp
    simp [hp]
  | cons c cs ih =>
    intro p hp
    simp only [splits, List.mem_cons, List.mem_map] at hp
    rcases hp with h | ⟨q, hq, rfl⟩
    · simp [h]
    · simpa using congrArg (c :: ·) (ih q hq)

lemma expectChar_sound (c : Char) (l r : List Char) (h : expectChar c l = some r) :
    l = c :: r := by
  cases l with
  | nil => exact absurd h (by simp [expectChar])
  | cons x xs =>
    rw [expectChar] at h
    split at h
    · next hxc =>
      cases h
      rw [show x = c from by simpa using hxc]
    · cases h

lemma expectStr_sound : ∀ (s l r : List Char), expectStr s l = some r → l = s ++ r := by
  intro s
  induction s with
  | nil =>
    intro l r h
    simp [expectStr] at h
    simp [h]
  | cons c cs ih =>
    intro l r h
    rw [expectStr] at h
    cases hec : expectChar c l with
    | none => rw [hec] at h; cases h
    | some l2 =>
      rw [hec] at h
      simp only [Option.bind] at h
      rw [expectChar_sound c l l2 hec, ih l2 r h]
      simp

lemma takeDots_sound : ∀ (n : Nat) (l g r : List Char), takeDots n l = some (g, r) →
    l = g ++ r ∧ g.length = n ∧ g.all dotChar = true := by
  intro n
  induction n with
  | zero =>
    intro l g r h
    rw [takeDots] at h
    cases h
    simp
  | succ n ih =>
    intro l g r h
    cases l with
    | nil => exact absurd h (by simp [takeDots])
    | cons c cs =>
      rw [takeDots] at h
      split at h
      · next hc =>
        cases htd : takeDots n cs with
        | none => rw [htd] at h; cases h
        | some pr =>
          rw [htd] at h
          simp only [Option.map] at h
          cases h
          obtain ⟨h1, h2, h3⟩ := ih cs pr.1 pr.2 (by rw [htd])
          refine ⟨by simp [h1], by simp [h2], by simp [hc, h3]⟩
      · cases h

lemma spanP_append (p : Char → Bool) : ∀ l : List Char, l = (spanP p l).1 ++ (spanP p l).2 := by
  intro l
  induction l with
  | nil => rfl
  | cons c cs ih =>
    by_cases hc : p c
    · simpa [spanP, hc] using ih
    · simp [spanP, hc]

lemma spanP_all (p : Char → Bool) : ∀ l : List Char, (spanP p l).1.all p = true := by
  intro l
  induction l with
  | nil => rfl
  | cons c cs ih =>
    by_cases hc : p c
    · simpa [spanP, hc] using ih
    · simp [spanP, hc]

lemma take1_sound (l : List Char) (c : Char) (r : List Char) (h : take1 l = some (c, r)) :
    l = c :: r := by
  cases l with
  | nil => cases h
  | cons x xs => cases h; rfl

lemma httpTail_sound (l rest : List Char) (h : httpTail l = some rest) :
    ∃ d1 x d2,
      l = ' ' :: 'H' :: 'T' :: 'T' :: 'P' :: '/' :: d1 :: x :: d2 :: '"' :: rest
        ∧ d1.isDigit = true ∧ dotChar x = true ∧ d2.isDigit = true := by
  rw [httpTail] at h
  split at h
  · cases h
  · next r hes =>
    split at h
    · cases h
    · next d1 r1 h1 =>
      split at h
      · cases h
      · next x r2 h2 =>
        split at h
        · cases h
        · next d2 r3 h3 =>
          split at h
          · cases h
          · next rest0 h4 =>
            split at h
            · next hcond =>
              cases h
              obtain ⟨hd1, hx, hd2⟩ :
                  d1.isDigit = true ∧ dotChar x = true ∧ d2.isDigit = true := by
                simpa [Bool.and_eq_true, and_assoc] using hcond
              refine ⟨d1, x, d2, ?_, hd1, hx, hd2⟩
              rw [expectStr_sound _ l r hes, take1_sound r d1 r1 h1,
                take1_sound r1 x r2 h2, take1_sound r2 d2 r3 h3,
                expectChar_sound '"' r3 rest h4]
              rfl
            · cases h

lemma or_false_split {a b : Bool} (h : ¬((a || !b) = true)) : a = false ∧ b = true := by
  cases a <;> cases b <;> simp_all

lemma ne_nil_of_not_isEmpty {l : List Char} (h : ¬(l.isEmpty = true)) : l ≠ [] := by
  intro e
  subst e
  exact h rfl

lemma ne_nil_of_isEmpty_false {l : List Char} (h : l.isEmpty = false) : l ≠ [] := by
  intro e
  subst e
  cases h

lemma parseEnd_sound (l g6 g7 : List Char) (h : parseEnd l = some (g6, g7)) :
    l = ' ' :: (g6 ++ ' ' :: g7) ∧ g6 ≠ [] ∧ g6.all Char.isDigit = true
      ∧ g7 ≠ [] ∧ g7.all dotChar = true := by
  rw [parseEnd] at h
  split at h
  · cases h
  · next r hec =>
    split at h
    · cases h
    · next hne =>
      split at h
      · cases h
      · next g7x hec2 =>
        split at h
        · cases h
        · next hcond =>
          cases h
          obtain ⟨hc1, hc2⟩ := or_false_split hcond
          have hr : r = (spanP Char.isDigit r).1 ++ ' ' :: g7 := by
            have hsp := spanP_append Char.isDigit r
            rw [expectChar_sound ' ' _ _ hec2] at hsp
            exact hsp
          refine ⟨?_, ne_nil_of_not_isEmpty hne, spanP_all Char.isDigit r,
            ne_nil_of_isEmpty_false hc1, hc2⟩
          rw [expectChar_sound ' ' l r hec]
          exact congrArg (' ' :: ·) hr

lemma spanP_eq_append (p : Char → Bool) (l a b : List Char) (h : spanP p l = (a, b)) :
    l = a ++ b := by
  have hs := spanP_append p l
  rw [h] at hs
  exact hs

lemma spanP_eq_all (p : Char → Bool) (l a b : List Char) (h : spanP p l = (a, b)) :
    a.all p = true := by
  have hs := spanP_all p l
  rw [h] at hs
  exact hs

lemma reqCand_sound (q : List Char × List Char) (g5 g6 g7 : List Char)
    (h : reqCand q = some (g5, g6, g7)) :
    g5 = q.1 ∧ q.1 ≠ [] ∧ q.1.all (fun c => !(c == '"')) = true ∧
      ∃ d1 x d2,
        q.2 = ' ' :: 'H' :: 'T' :: 'T' :: 'P' :: '/' :: d1 :: x :: d2 :: '"'
            :: (' ' :: (g6 ++ ' ' :: g7))
          ∧ d1.isDigit = true ∧ dotChar x = true ∧ d2.isDigit = true
          ∧ g6 ≠ [] ∧ g6.all Char.isDigit = true ∧ g7 ≠ [] ∧ g7.all dotChar = true := by
  rw [reqCand] at h
  split at h
  · cases h
  · next hcond =>
    split at h
    · cases h
    · next rest hht =>
      split at h
      · cases h
      · next g6x g7x hpe =>
        cases h
        obtain ⟨hc1, hc2⟩ := or_false_split hcond
        obtain ⟨d1, x, d2, hq2, hd1, hx, hd2⟩ := httpTail_sound q.2 rest hht
        obtain ⟨hrest, hg6ne, hg6, hg7ne, hg7⟩ := parseEnd_sound rest g6 g7 hpe
        refine ⟨rfl, ne_nil_of_isEmpty_false hc1, hc2, d1, x, d2, ?_,
          hd1, hx, hd2, hg6ne, hg6, hg7ne, hg7⟩
        rw [hq2, hrest]

lemma matchReq_sound (r g5 g6 g7 : List Char) (h : matchReq r = some (g5, g6, g7)) :
    ∃ d1 x d2,
      r = g5 ++ ' ' :: 'H' :: 'T' :: 'T' :: 'P' :: '/' :: d1 :: x :: d2 :: '"' :: ' '
            :: g6 ++ ' ' :: g7
        ∧ g5 ≠ [] ∧ g5.all (fun c => !(c == '"')) = true
        ∧ d1.isDigit = true ∧ dotChar x = true ∧ d2.isDigit = true
        ∧ g6 ≠ [] ∧ g6.all Char.isDigit = true ∧ g7 ≠ [] ∧ g7.all dotChar = true := by
  rw [matchReq] at h
  obtain ⟨q, hq, hfq⟩ := findSome_inv _ _ _ h
  have hr : r = q.1 ++ q.2 := splits_sound r q (List.mem_reverse.mp hq)
  obtain ⟨hg5, hne, hall, d1, x, d2, hq2, hd1, hx, hd2, hg6ne, hg6, hg7ne, hg7⟩ :=
    reqCand_sound q g5 g6 g7 hfq
  subst hg5
  refine ⟨d1, x, d2, ?_, hne, hall, hd1, hx, hd2, hg6ne, hg6, hg7ne, hg7⟩
  rw [hr, hq2]
  simp

lemma matchRest_sound (r1 g2 g3 g4 g5 g6 g7 : List Char)
    (h : matchRest r1 = some (g2, g3, g4, g5, g6, g7)) :
    ∃ d1 x d2,
      r1 = g2 ++ ':' :: g3 ++ ']' :: ' ' :: '"' :: g4 ++ ' ' :: g5
          ++ ' ' :: 'H' :: 'T' :: 'T' :: 'P' :: '/' :: d1 :: x :: d2 :: '"' :: ' '
            :: g6 ++ ' ' :: g7
        ∧ g2.length = 11 ∧ g2.all dotChar = true
        ∧ g3.length = 14 ∧ g3.all dotChar = true
        ∧ g4 ≠ [] ∧ g4.all wordChar = true
        ∧ g5 ≠ [] ∧ g5.all (fun c => !(c == '"')) = true
        ∧ d1.isDigit = true ∧ dotChar x = true ∧ d2.isDigit = true
        ∧ g6 ≠ [] ∧ g6.all Char.isDigit = true ∧ g7 ≠ [] ∧ g7.all dotChar = true := by
  rw [matchRest] at h
  split at h
  · cases h
  · next g2x r2 htd1 =>
    split at h
    · cases h
    · next r3 hcolon =>
      split at h
      · cases h
      · next g3x r4 htd2 =>
        split at h
        · cases h
        · next r5 hket =>
          split at h
          next g4x r6 hspan =>
            split at h
            · cases h
            · next hg4ne =>
              split at h
              · cases h
              · next r7 hsp =>
                split at h
                · cases h
                · next g5x g6x g7x hmr =>
                  cases h
                  obtain ⟨ht1, ht2, ht3⟩ := takeDots_sound 11 r1 g2 r2 htd1
                  obtain ⟨hu1, hu2, hu3⟩ := takeDots_sound 14 r3 g3 r4 htd2
                  have hc1 := expectChar_sound ':' r2 r3 hcolon
                  have hk1 := expectStr_sound [']', ' ', '"'] r4 r5 hket
                  have hsp5 := spanP_eq_append wordChar r5 g4 r6 hspan
                  have hall4 := spanP_eq_all wordChar r5 g4 r6 hspan
                  have hsp6 := expectChar_sound ' ' r6 r7 hsp
                  obtain ⟨d1, x, d2, hr7, hg5ne, hg5all, hd1, hx, hd2, hg6ne, hg6,
                    hg7ne, hg7⟩ := matchReq_sound r7 g5 g6 g7 hmr
                  refine ⟨d1, x, d2, ?_, ht2, ht3, hu2, hu3,
                    ne_nil_of_not_isEmpty hg4ne, hall4, hg5ne, hg5all,
                    hd1, hx, hd2, hg6ne, hg6, hg7ne, hg7⟩
                  subst hr7
                  subst hsp6
                  subst hsp5
                  subst hk1
                  subst hc1
                  rw [ht1, hu1]
                  simp

/-- C10: every historical log line processed while the request is live emits
exactly one frame carrying the parse result; a line the pattern rejects still
yields a frame, with a null payload, rather than being skipped; and a line
producing a structured entry necessarily matches the access-log pattern. -/
theorem c10_log_line_always_emits (line : String) :
    get_log_line false line = [Frame.add (parse line)] ∧
      (parse line = none → get_log_line false line = [Frame.add none]) ∧
      ∀ e, parse line = some e → AccessLogShape line := by
  refine ⟨rfl, fun h => by rw [get_log_line, if_neg (by simp), h], fun e h => ?_⟩
  rw [parse] at h
  obtain ⟨p, hp, hfp⟩ := findSome_inv _ _ _ h
  have hline : line.toList = p.1 ++ p.2 := splits_sound _ p (List.mem_reverse.mp hp)
  rw [parseCand] at hfp
  split at hfp
  · cases hfp
  · next hcond =>
    split at hfp
    · cases hfp
    · next r1 hsep =>
      split at hfp
      · cases hfp
      · next g2 g3 g4 g5 g6 g7 hmr =>
        obtain ⟨hc1, hc2⟩ := or_false_split hcond
        obtain ⟨d1, x, d2, hr1, hl2, ha2, hl3, ha3, hn4, ha4, hn5, ha5,
          hd1, hx, hd2, hn6, ha6, hn7, ha7⟩ := matchRest_sound r1 g2 g3 g4 g5 g6 g7 hmr
        refine ⟨p.1, g2, g3, g4, g5, g6, g7, d1, x, d2, ?_,
          ne_nil_of_isEmpty_false hc1, hc2, hl2, ha2, hl3, ha3, hn4, ha4, hn5, ha5,
          hd1, hx, hd2, hn6, ha6, hn7, ha7⟩
        rw [hline, expectStr_sound sepList p.2 r1 hsep, hr1]
        simp

/-- A concrete line matching the access-log pattern, for the C10 witness. -/
def logLineW : String :=
  "a - - [01/Jan/2023:00:00:00 +0000] \x22G /u HTTP/1.1\x22 2 -"

/-- The entry parsed from the concrete matching line. -/
def logEntryW : LogEntry :=
  { ip := "a", ts := "01/Jan/2023 00:00:00 +0000", method := "G", uri := "/u",
    code := 2, size := none }

/-- Witness for C10: a non-matching line still emits an add frame with a null
payload, and a concrete matching line parses to a structured entry whose
existence certifies the pattern shape. -/
theorem c10_log_line_always_emits_witness :
    get_log_line false "hello" = [Frame.add none] ∧
      parse logLineW = some logEntryW ∧ AccessLogShape logLineW :=
  ⟨(c10_log_line_always_emits "hello").2.1 (by decide),
    by decide,
    (c10_log_line_always_emits logLineW).2.2 logEntryW (by decide)⟩

end Hfs
